import Mathlib

/-!
Shallow embedding of `market_maker_keeper/order_book.py` (classes `OrderBook`
and `OrderBookManager`).  The mutable fields of the manager become a record
`ManagerState`; each method body that mutates the state becomes a pure state
transformer.  The background refresher and the per-call placement and
cancellation tasks are modelled by an event semantics: every lock-protected
critical section of the Python code is one atomic event, and an execution is a
sequence of such events.  A refresh cycle is one step that captures the
pre-poll copies, lets an arbitrary list of book-keeping events run while the
provider call is in flight, and then reconciles - exactly the structure of
`_thread_refresh_order_book`.
-/

namespace MMK

/-- An exchange order.  The source treats orders as opaque records with an
integer `order_id` field; `payload` stands for the collaborator-defined fields
that pass through the manager unchanged. -/
structure Order where
  order_id : Int
  payload : Nat
  deriving DecidableEq

/-- The dictionary stored in `self._state` after a successful poll:
`{'orders': orders, 'balances': balances}`.  Balances are opaque to the
manager; `none` models the Python `None` used when no balances function is
configured. -/
structure Snapshot where
  orders : List Order
  balances : Option Nat
  deriving DecidableEq

/-- The value returned by `OrderBookManager.get_order_book` (Python class
`OrderBook`). -/
structure OrderBook where
  orders : List Order
  balances : Option Nat
  orders_being_placed : Bool
  orders_being_cancelled : Bool
  deriving DecidableEq

/-- The mutable fields of `OrderBookManager` set up in `__init__`:
`_state`, `_refresh_count`, `_currently_placing_orders`, `_orders_placed`,
`_order_ids_cancelling` and `_order_ids_cancelled`.  The configuration
(`refresh_frequency`, the collaborator functions) and the lock are not part of
the tracked state. -/
structure ManagerState where
  state : Option Snapshot
  refresh_count : Nat
  currently_placing_orders : Int
  orders_placed : List Order
  order_ids_cancelling : Finset Int
  order_ids_cancelled : Finset Int
  deriving DecidableEq

/-- The state right after `__init__`: no snapshot yet, zero counters, empty
trackers. -/
def initState : ManagerState :=
  { state := none
    refresh_count := 0
    currently_placing_orders := 0
    orders_placed := []
    order_ids_cancelling := ∅
    order_ids_cancelled := ∅ }

/-- Lines 157-161 of `get_order_book`: starting from a copy of the snapshot
orders, append each placed order whose id is not already present by id in the
list built so far.  The loop accumulator is the first argument. -/
def place_fold (base : List Order) : List Order → List Order
  | [] => base
  | o :: rest =>
      if o.order_id ∈ base.map Order.order_id then place_fold base rest
      else place_fold (base ++ [o]) rest

/-- Method `get_order_book` (lines 132-172).  When `_state` is still `None`
the Python method loops waiting; that case is modelled as `none`.  Otherwise:
amend the snapshot orders with the placed ones, drop every order whose id is
being cancelled or already cancelled, and report the two activity flags. -/
def get_order_book (s : ManagerState) : Option OrderBook :=
  match s.state with
  | none => none
  | some st =>
      let orders1 := place_fold st.orders s.orders_placed
      let orders2 := orders1.filter fun order =>
        decide (order.order_id ∉ s.order_ids_cancelling ∧
                order.order_id ∉ s.order_ids_cancelled)
      some { orders := orders2
             balances := st.balances
             orders_being_placed := decide (s.currently_placing_orders > 0)
             orders_being_cancelled := decide (s.order_ids_cancelling.card > 0) }

/-- The lock-protected body of `place_order` (lines 182-183): increment the
in-flight placement counter before launching the task. -/
def place_order_start (s : ManagerState) : ManagerState :=
  { s with currently_placing_orders := s.currently_placing_orders + 1 }

/-- Outcome of one `place_order_function()` call: a returned value (possibly
`None`) or a raised exception. -/
inductive PlaceResult where
  | ok (newOrder : Option Order)
  | exn
  deriving DecidableEq

/-- The task body built by `_thread_place_order` (lines 264-273): append the
new order to `_orders_placed` when the placer returned one, and decrement
`_currently_placing_orders` in the `finally` block on every exit path. -/
def thread_place_order (s : ManagerState) (r : PlaceResult) : ManagerState :=
  match r with
  | .ok (some newOrder) =>
      { s with orders_placed := s.orders_placed ++ [newOrder]
               currently_placing_orders := s.currently_placing_orders - 1 }
  | .ok none => { s with currently_placing_orders := s.currently_placing_orders - 1 }
  | .exn => { s with currently_placing_orders := s.currently_placing_orders - 1 }

/-- The lock-protected body of `cancel_order` (lines 200-201): add the id to
`_order_ids_cancelling` before launching the task. -/
def cancel_order_start (s : ManagerState) (order_id : Int) : ManagerState :=
  { s with order_ids_cancelling := insert order_id s.order_ids_cancelling }

/-- Lines 289-292: `try: remove except KeyError: pass` - remove an id from a
set, treating an absent id as a no-op. -/
def remove_ignoring_missing (ids : Finset Int) (order_id : Int) : Finset Int :=
  ids.erase order_id

/-- Outcome of one `cancel_order_function()` call: a returned boolean or a
raised exception. -/
inductive CancelResult where
  | ok (success : Bool)
  | exn
  deriving DecidableEq

/-- The task body built by `_thread_cancel_order` (lines 281-292).  On a true
result the try block adds the id to `_order_ids_cancelled` and removes it from
`_order_ids_cancelling` (when the id is absent Python raises `KeyError` after
the add, with the same net state effect as `Finset.erase`); the `finally`
block then removes the id from `_order_ids_cancelling` ignoring absence, on
every exit path. -/
def thread_cancel_order (s : ManagerState) (order_id : Int) (r : CancelResult) :
    ManagerState :=
  let afterTry :=
    match r with
    | .ok true =>
        { s with order_ids_cancelled := insert order_id s.order_ids_cancelled
                 order_ids_cancelling := s.order_ids_cancelling.erase order_id }
    | .ok false => s
    | .exn => s
  { afterTry with
      order_ids_cancelling :=
        remove_ignoring_missing afterTry.order_ids_cancelling order_id }

/-- One atomic lock-protected critical section executed by `place_order`,
`cancel_order` or one of their launched tasks. -/
inductive BookEvent where
  | place_start
  | place_finish (r : PlaceResult)
  | cancel_start (order_id : Int)
  | cancel_finish (order_id : Int) (r : CancelResult)
  deriving DecidableEq

def applyBookEvent (s : ManagerState) : BookEvent → ManagerState
  | .place_start => place_order_start s
  | .place_finish r => thread_place_order s r
  | .cancel_start order_id => cancel_order_start s order_id
  | .cancel_finish order_id r => thread_cancel_order s order_id r

def applyBookEvents (s : ManagerState) (es : List BookEvent) : ManagerState :=
  es.foldl applyBookEvent s

/-- Outcome of the provider calls in one refresh cycle: both providers
returned (orders plus optional balances), or one of them raised. -/
inductive PollResult where
  | ok (orders : List Order) (balances : Option Nat)
  | exn
  deriving DecidableEq

/-- The second lock-protected block of `_thread_refresh_order_book`
(lines 243-252): subtract the pre-poll copy `C0` from
`_order_ids_cancelled`, remove each member of the pre-poll copy `P0` once
from `_orders_placed` (Python `list.remove`; first occurrence; the entries
are present because mid-poll events only append), install the new snapshot
and bump the refresh counter. -/
def reconcile (s : ManagerState) (C0 : Finset Int) (P0 : List Order)
    (orders : List Order) (balances : Option Nat) : ManagerState :=
  { s with
      order_ids_cancelled := s.order_ids_cancelled \ C0
      orders_placed := P0.foldl (fun placed o => placed.erase o) s.orders_placed
      state := some { orders := orders, balances := balances }
      refresh_count := s.refresh_count + 1 }

/-- One iteration of the `_thread_refresh_order_book` loop (lines 234-257).
`C0` and `P0` are captured under the lock before the provider calls (Python
`set(...)` of a list is modelled by `List.dedup`); `mid` is the list of
book-keeping events other threads run while the provider call is in flight;
on success the cycle reconciles against the captured copies, on a raised
exception the `except` clause logs and leaves the state as the mid events
left it. -/
def refresh_cycle (s : ManagerState) (mid : List BookEvent) (poll : PollResult) :
    ManagerState :=
  let C0 := s.order_ids_cancelled
  let P0 := s.orders_placed.dedup
  let s1 := applyBookEvents s mid
  match poll with
  | .ok orders balances => reconcile s1 C0 P0 orders balances
  | .exn => s1

/-- One step of an execution: a book-keeping critical section, or a full
refresh cycle with the book-keeping events that interleave with its in-flight
provider call. -/
inductive Step where
  | book (e : BookEvent)
  | refresh (mid : List BookEvent) (poll : PollResult)

def applyStep (s : ManagerState) : Step → ManagerState
  | .book e => applyBookEvent s e
  | .refresh mid poll => refresh_cycle s mid poll

def runSteps (s : ManagerState) (steps : List Step) : ManagerState :=
  steps.foldl applyStep s

/-- The return condition of `wait_for_order_book_refresh` (line 219): the
method captures the counter at call time and leaves its loop exactly when it
observes a strictly greater value. -/
def wait_for_order_book_refresh_returns (old_counter new_counter : Nat) : Prop :=
  new_counter > old_counter

/-- A step is good when, if it is a successful poll, the provider returned
orders with pairwise-distinct ids. -/
def GoodStep : Step → Prop
  | .refresh _ (.ok orders _) => (orders.map Order.order_id).Nodup
  | _ => True

instance instDecidableGoodStep : DecidablePred GoodStep := fun st =>
  match st with
  | .book _ => isTrue trivial
  | .refresh _ (.ok orders _) =>
      inferInstanceAs (Decidable ((orders.map Order.order_id).Nodup))
  | .refresh _ .exn => isTrue trivial

/-- The snapshot, if present, lists pairwise-distinct order ids. -/
def SnapNodup (s : ManagerState) : Prop :=
  ∀ snap, s.state = some snap → (snap.orders.map Order.order_id).Nodup

/-- Statement-level transcription of `get_order_book` (lines 140-172).  The
method body reads the manager fields, builds the local `orders` list from
copies (`list(...)`, `filter`) and contains no assignment to any `self`
field, so the manager state at return is the state at entry; the pair makes
that explicit. -/
def get_order_book_st (s : ManagerState) : Option (OrderBook × ManagerState) :=
  match get_order_book s with
  | none => none
  | some ob => some (ob, s)

/-! Helper lemmas about the book-keeping events. -/

lemma state_applyBookEvent (s : ManagerState) (e : BookEvent) :
    (applyBookEvent s e).state = s.state := by
  cases e with
  | place_start => rfl
  | place_finish r =>
      cases r with
      | ok o => cases o <;> rfl
      | exn => rfl
  | cancel_start j => rfl
  | cancel_finish j r =>
      cases r with
      | ok b => cases b <;> rfl
      | exn => rfl

lemma refresh_count_applyBookEvent (s : ManagerState) (e : BookEvent) :
    (applyBookEvent s e).refresh_count = s.refresh_count := by
  cases e with
  | place_start => rfl
  | place_finish r =>
      cases r with
      | ok o => cases o <;> rfl
      | exn => rfl
  | cancel_start j => rfl
  | cancel_finish j r =>
      cases r with
      | ok b => cases b <;> rfl
      | exn => rfl

lemma mem_cancelled_applyBookEvent (s : ManagerState) (e : BookEvent) (id : Int)
    (h : id ∈ s.order_ids_cancelled) :
    id ∈ (applyBookEvent s e).order_ids_cancelled := by
  cases e with
  | place_start => exact h
  | place_finish r =>
      cases r with
      | ok o => cases o <;> exact h
      | exn => exact h
  | cancel_start j => exact h
  | cancel_finish j r =>
      cases r with
      | ok b =>
          cases b with
          | false => exact h
          | true => exact Finset.mem_insert_of_mem h
      | exn => exact h

lemma state_applyBookEvents (es : List BookEvent) :
    ∀ s : ManagerState, (applyBookEvents s es).state = s.state := by
  induction es with
  | nil => intro s; rfl
  | cons e rest ih =>
      intro s
      calc (applyBookEvents (applyBookEvent s e) rest).state
          = (applyBookEvent s e).state := ih _
        _ = s.state := state_applyBookEvent s e

lemma refresh_count_applyBookEvents (es : List BookEvent) :
    ∀ s : ManagerState, (applyBookEvents s es).refresh_count = s.refresh_count := by
  induction es with
  | nil => intro s; rfl
  | cons e rest ih =>
      intro s
      calc (applyBookEvents (applyBookEvent s e) rest).refresh_count
          = (applyBookEvent s e).refresh_count := ih _
        _ = s.refresh_count := refresh_count_applyBookEvent s e

lemma mem_cancelled_applyBookEvents (es : List BookEvent) :
    ∀ (s : ManagerState) (id : Int), id ∈ s.order_ids_cancelled →
      id ∈ (applyBookEvents s es).order_ids_cancelled := by
  induction es with
  | nil => intro s id h; exact h
  | cons e rest ih =>
      intro s id h
      exact ih _ _ (mem_cancelled_applyBookEvent s e id h)

/-! Helper lemmas about `place_fold`. -/

lemma place_fold_map_nodup (placed : List Order) :
    ∀ base : List Order, (base.map Order.order_id).Nodup →
      ((place_fold base placed).map Order.order_id).Nodup := by
  induction placed with
  | nil => intro base h; exact h
  | cons o rest ih =>
      intro base h
      by_cases hm : o.order_id ∈ base.map Order.order_id
      · rw [place_fold, if_pos hm]
        exact ih base h
      · rw [place_fold, if_neg hm]
        refine ih (base ++ [o]) ?_
        simp only [List.map_append, List.map_cons, List.map_nil]
        simpa [List.nodup_append] using
          ⟨h, fun x hx he => hm (he ▸ List.mem_map_of_mem Order.order_id hx)⟩

lemma place_fold_count_of_mem (placed : List Order) :
    ∀ (base : List Order) (t : Int), t ∈ base.map Order.order_id →
      ((place_fold base placed).map Order.order_id).count t =
        (base.map Order.order_id).count t := by
  induction placed with
  | nil => intro base t _; rfl
  | cons o rest ih =>
      intro base t ht
      by_cases hm : o.order_id ∈ base.map Order.order_id
      · rw [place_fold, if_pos hm]
        exact ih base t ht
      · rw [place_fold, if_neg hm]
        have hne : o.order_id ≠ t := fun he => hm (he ▸ ht)
        rw [ih (base ++ [o]) t (by simp [ht])]
        have hz : List.count t [o.order_id] = 0 := by
          simp [List.count_cons, hne]
        simp [List.count_append, hz]

lemma place_fold_count_one (placed : List Order) :
    ∀ (base : List Order) (o : Order), o ∈ placed →
      o.order_id ∉ base.map Order.order_id →
      ((place_fold base placed).map Order.order_id).count o.order_id = 1 := by
  induction placed with
  | nil => intro base o hmem _; cases hmem
  | cons p rest ih =>
      intro base o hmem hb
      by_cases hm : p.order_id ∈ base.map Order.order_id
      · rw [place_fold, if_pos hm]
        rcases List.mem_cons.mp hmem with he | hr
        · exact absurd (he ▸ hb) (fun hc => hc hm)
        · exact ih base o hr hb
      · rw [place_fold, if_neg hm]
        by_cases hid : p.order_id = o.order_id
        · have hmem2 : o.order_id ∈ (base ++ [p]).map Order.order_id := by
            simp [hid.symm]
          rw [place_fold_count_of_mem rest (base ++ [p]) o.order_id hmem2]
          have hzero : (base.map Order.order_id).count o.order_id = 0 :=
            List.count_eq_zero_of_not_mem hb
          simp [List.count_append, hzero, hid]
        · have hr : o ∈ rest := by
            rcases List.mem_cons.mp hmem with he | hr
            · exact absurd (congrArg Order.order_id he.symm) hid
            · exact hr
          refine ih (base ++ [p]) o hr ?_
          have hne2 : o.order_id ≠ p.order_id := fun h => hid h.symm
          simp [hb, hne2]

lemma count_map_filter_of_id (l : List Order) (p : Order → Bool) (t : Int)
    (hp : ∀ o : Order, o.order_id = t → p o = true) :
    (((l.filter p).map Order.order_id).count t) = ((l.map Order.order_id).count t) := by
  induction l with
  | nil => rfl
  | cons o rest ih =>
      by_cases hpo : p o = true
      · simp [List.filter_cons, hpo, List.count_cons, ih]
      · have hne : o.order_id ≠ t := fun h => hpo (hp o h)
        simp [List.filter_cons, hpo, List.count_cons, hne, ih]

/-! Helper lemmas about refresh cycles and executions. -/

lemma refresh_cycle_ok_refresh_count (s : ManagerState) (mid : List BookEvent)
    (orders : List Order) (balances : Option Nat) :
    (refresh_cycle s mid (.ok orders balances)).refresh_count = s.refresh_count + 1 := by
  show (reconcile (applyBookEvents s mid) _ _ orders balances).refresh_count
        = s.refresh_count + 1
  show (applyBookEvents s mid).refresh_count + 1 = s.refresh_count + 1
  rw [refresh_count_applyBookEvents]

lemma refresh_cycle_exn_refresh_count (s : ManagerState) (mid : List BookEvent) :
    (refresh_cycle s mid .exn).refresh_count = s.refresh_count := by
  show (applyBookEvents s mid).refresh_count = s.refresh_count
  rw [refresh_count_applyBookEvents]

lemma refresh_count_le_applyStep (s : ManagerState) (st : Step) :
    s.refresh_count ≤ (applyStep s st).refresh_count := by
  cases st with
  | book e => exact le_of_eq (refresh_count_applyBookEvent s e).symm
  | refresh mid poll =>
      cases poll with
      | ok orders balances =>
          rw [show applyStep s (.refresh mid (.ok orders balances))
                = refresh_cycle s mid (.ok orders balances) from rfl,
              refresh_cycle_ok_refresh_count]
          exact Nat.le_succ _
      | exn =>
          exact le_of_eq (refresh_cycle_exn_refresh_count s mid).symm

lemma refresh_count_le_runSteps (steps : List Step) :
    ∀ s : ManagerState, s.refresh_count ≤ (runSteps s steps).refresh_count := by
  induction steps with
  | nil => intro s; exact le_refl _
  | cons st rest ih =>
      intro s
      exact le_trans (refresh_count_le_applyStep s st) (ih (applyStep s st))

lemma foldl_failing_polls (polls : List PollResult) :
    ∀ s : ManagerState, (∀ p ∈ polls, p = PollResult.exn) →
      polls.foldl (fun t p => refresh_cycle t [] p) s = s := by
  induction polls with
  | nil => intro s _; rfl
  | cons p rest ih =>
      intro s h
      have hp : p = PollResult.exn := h p (List.mem_cons_self p rest)
      subst hp
      exact ih s (fun q hq => h q (List.mem_cons_of_mem _ hq))

lemma snapNodup_applyStep (s : ManagerState) (st : Step)
    (h : SnapNodup s) (hg : GoodStep st) : SnapNodup (applyStep s st) := by
  cases st with
  | book e =>
      intro snap hsnap
      exact h snap ((state_applyBookEvent s e) ▸ hsnap)
  | refresh mid poll =>
      cases poll with
      | exn =>
          intro snap hsnap
          have hst : (refresh_cycle s mid .exn).state = s.state :=
            state_applyBookEvents mid s
          exact h snap (hst ▸ hsnap)
      | ok orders balances =>
          intro snap hsnap
          have hsnap2 : some ({ orders := orders, balances := balances } : Snapshot)
              = some snap := hsnap
          cases hsnap2
          exact hg

lemma snapNodup_runSteps (steps : List Step) :
    ∀ s : ManagerState, SnapNodup s → (∀ st ∈ steps, GoodStep st) →
      SnapNodup (runSteps s steps) := by
  induction steps with
  | nil => intro s h _; exact h
  | cons st rest ih =>
      intro s h hg
      exact ih (applyStep s st)
        (snapNodup_applyStep s st h (hg st (List.mem_cons_self st rest)))
        (fun q hq => hg q (List.mem_cons_of_mem _ hq))

lemma get_order_book_orders_eq (s : ManagerState) (snap : Snapshot) (ob : OrderBook)
    (hs : s.state = some snap) (hob : get_order_book s = some ob) :
    ob.orders = (place_fold snap.orders s.orders_placed).filter fun order =>
      decide (order.order_id ∉ s.order_ids_cancelling ∧
              order.order_id ∉ s.order_ids_cancelled) := by
  rw [get_order_book, hs] at hob
  cases hob
  rfl

/-! Concrete example states used by the claim witnesses. -/

/-- Snapshot holding orders with ids 1 and 2, as after a poll that returned
them. -/
def exSnap : Snapshot := { orders := [⟨1, 0⟩, ⟨2, 0⟩], balances := none }

/-- A manager state after one successful poll of orders 1 and 2, one
confirmed placement of order 3, and a cancellation of order 2 in flight. -/
def exState : ManagerState :=
  { state := some exSnap
    refresh_count := 1
    currently_placing_orders := 0
    orders_placed := [⟨3, 0⟩]
    order_ids_cancelling := {2}
    order_ids_cancelled := ∅ }

/-- The order book `get_order_book` returns on `exState`. -/
def exOB : OrderBook :=
  { orders := [⟨1, 0⟩, ⟨3, 0⟩]
    balances := none
    orders_being_placed := false
    orders_being_cancelled := true }

/-- A one-step execution: a successful poll returning orders 1 and 2. -/
def exSteps : List Step := [Step.refresh [] (.ok [⟨1, 0⟩, ⟨2, 0⟩] none)]

/-- The order book obtained after running `exSteps` from the initial state. -/
def exOB1 : OrderBook :=
  { orders := [⟨1, 0⟩, ⟨2, 0⟩]
    balances := none
    orders_being_placed := false
    orders_being_cancelled := false }

/-- Mid-poll events: a cancellation of order 7 launched and confirmed while
the provider call is in flight. -/
def exMid : List BookEvent := [.cancel_start 7, .cancel_finish 7 (.ok true)]

/-- A reachable state in which order 7 was already successfully cancelled
(so it sits in the cancelled-unconfirmed set) and a second cancellation of
the same id has been launched. -/
def c7pre : ManagerState := runSteps initState
  [.refresh [] (.ok [] none),
   .book (.cancel_start 7),
   .book (.cancel_finish 7 (.ok true)),
   .book (.cancel_start 7)]

/-! The claims. -/

/-- Claim C1: for every manager state produced by a sequence of successful
polls (each returning orders with pairwise-distinct ids) interleaved with
place and cancel book-keeping, the orders list returned by `get_order_book`
contains no two orders with the same `order_id`. -/
theorem C1_view_order_ids_nodup (steps : List Step)
    (hg : ∀ st ∈ steps, GoodStep st) (ob : OrderBook)
    (hob : get_order_book (runSteps initState steps) = some ob) :
    (ob.orders.map Order.order_id).Nodup := by
  have hinv : SnapNodup (runSteps initState steps) := by
    refine snapNodup_runSteps steps initState ?_ hg
    intro snap hsnap
    simp [initState] at hsnap
  cases hs : (runSteps initState steps).state with
  | none => rw [get_order_book, hs] at hob; cases hob
  | some snap =>
      rw [get_order_book_orders_eq _ snap ob hs hob]
      have hbase := hinv snap hs
      have hfold := place_fold_map_nodup (runSteps initState steps).orders_placed
        snap.orders hbase
      exact List.Nodup.sublist ((List.filter_sublist _).map Order.order_id) hfold

/-- Witness for C1 on a concrete one-poll execution. -/
theorem C1_view_order_ids_nodup_witness :
    (∀ st ∈ exSteps, GoodStep st) ∧
    get_order_book (runSteps initState exSteps) = some exOB1 ∧
    (exOB1.orders.map Order.order_id).Nodup :=
  ⟨by decide, by decide,
   C1_view_order_ids_nodup exSteps (by decide) exOB1 (by decide)⟩

/-- Claim C2: an order whose id is in the cancelling set or in the
cancelled-unconfirmed set never appears in the returned orders, and right
after `cancel_order` adds an id to the cancelling set the view excludes that
id, whether or not an order with that id was present before. -/
theorem C2_cancelled_ids_excluded_from_view (s : ManagerState) (ob : OrderBook)
    (hob : get_order_book s = some ob) :
    (∀ order : Order,
        order.order_id ∈ s.order_ids_cancelling ∨
          order.order_id ∈ s.order_ids_cancelled →
        order ∉ ob.orders) ∧
    (∀ (order_id : Int) (ob2 : OrderBook),
        get_order_book (cancel_order_start s order_id) = some ob2 →
        ∀ order ∈ ob2.orders, order.order_id ≠ order_id) := by
  constructor
  · intro order hmem hin
    cases hs : s.state with
    | none => rw [get_order_book, hs] at hob; cases hob
    | some snap =>
        rw [get_order_book_orders_eq s snap ob hs hob] at hin
        have hconj := of_decide_eq_true (List.mem_filter.mp hin).2
        rcases hmem with h | h
        · exact hconj.1 h
        · exact hconj.2 h
  · intro order_id ob2 hob2 order hin he
    cases hs2 : (cancel_order_start s order_id).state with
    | none => rw [get_order_book, hs2] at hob2; cases hob2
    | some snap =>
        rw [get_order_book_orders_eq _ snap ob2 hs2 hob2] at hin
        have hconj := of_decide_eq_true (List.mem_filter.mp hin).2
        subst he
        exact hconj.1 (Finset.mem_insert_self _ _)

/-- Witness for C2: in `exState` the id 2 is being cancelled, and the order
with id 2 is indeed absent from the returned view. -/
theorem C2_cancelled_ids_excluded_from_view_witness :
    get_order_book exState = some exOB ∧ (⟨2, 0⟩ : Order) ∉ exOB.orders :=
  ⟨by decide,
   (C2_cancelled_ids_excluded_from_view exState exOB (by decide)).1
     ⟨2, 0⟩ (Or.inl (by decide))⟩

/-- Claim C3: the view orders are the snapshot orders extended by each placed
order whose id is not yet present, then filtered by the cancellation sets;
every placed order whose id is in neither the snapshot nor a cancellation set
appears exactly once. -/
theorem C3_placed_orders_composition (s : ManagerState) (snap : Snapshot)
    (ob : OrderBook) (hs : s.state = some snap)
    (hob : get_order_book s = some ob) :
    (ob.orders = (place_fold snap.orders s.orders_placed).filter fun order =>
        decide (order.order_id ∉ s.order_ids_cancelling ∧
                order.order_id ∉ s.order_ids_cancelled)) ∧
    (∀ o ∈ s.orders_placed,
        o.order_id ∉ snap.orders.map Order.order_id →
        o.order_id ∉ s.order_ids_cancelling →
        o.order_id ∉ s.order_ids_cancelled →
        (ob.orders.map Order.order_id).count o.order_id = 1) := by
  have heq := get_order_book_orders_eq s snap ob hs hob
  refine ⟨heq, ?_⟩
  intro o hmem hsnapid hc1 hc2
  rw [heq]
  have hp : ∀ o2 : Order, o2.order_id = o.order_id →
      (fun order => decide (order.order_id ∉ s.order_ids_cancelling ∧
          order.order_id ∉ s.order_ids_cancelled)) o2 = true := by
    intro o2 h2
    simp only
    rw [h2]
    exact decide_eq_true ⟨hc1, hc2⟩
  rw [count_map_filter_of_id _ _ _ hp]
  exact place_fold_count_one s.orders_placed snap.orders o hmem hsnapid

/-- Witness for C3: in `exState` the placed order 3 is new and uncancelled,
and it shows up exactly once in the view. -/
theorem C3_placed_orders_composition_witness :
    exState.state = some exSnap ∧
    get_order_book exState = some exOB ∧
    (exOB.orders.map Order.order_id).count 3 = 1 :=
  ⟨by decide, by decide,
   (C3_placed_orders_composition exState exSnap exOB (by decide) (by decide)).2
     ⟨3, 0⟩ (by decide) (by decide) (by decide) (by decide)⟩

/-- Claim C4: a successful reconciliation subtracts exactly the pre-poll copy
of the cancelled set, erases exactly the pre-poll entries of the placed list,
and installs the new snapshot; an id that entered the cancelled set during
the in-flight poll survives the cycle, is excluded from the view, and stays
in the cancelled set under any further book-keeping events, until at least
one further successful poll. -/
theorem C4_reconciliation_race_safe (s : ManagerState) (mid : List BookEvent)
    (orders : List Order) (balances : Option Nat) :
    (refresh_cycle s mid (.ok orders balances)).order_ids_cancelled
        = (applyBookEvents s mid).order_ids_cancelled \ s.order_ids_cancelled ∧
    (refresh_cycle s mid (.ok orders balances)).orders_placed
        = s.orders_placed.dedup.foldl (fun placed o => placed.erase o)
            (applyBookEvents s mid).orders_placed ∧
    (refresh_cycle s mid (.ok orders balances)).state
        = some { orders := orders, balances := balances } ∧
    (∀ order_id : Int,
        order_id ∈ (applyBookEvents s mid).order_ids_cancelled →
        order_id ∉ s.order_ids_cancelled →
        order_id ∈ (refresh_cycle s mid (.ok orders balances)).order_ids_cancelled ∧
        (∀ ob, get_order_book (refresh_cycle s mid (.ok orders balances)) = some ob →
            ∀ o ∈ ob.orders, o.order_id ≠ order_id) ∧
        (∀ es : List BookEvent, order_id ∈
            (applyBookEvents (refresh_cycle s mid (.ok orders balances)) es).order_ids_cancelled)) := by
  refine ⟨rfl, rfl, rfl, ?_⟩
  intro order_id hin hnot
  have hmem : order_id ∈ (refresh_cycle s mid (.ok orders balances)).order_ids_cancelled := by
    show order_id ∈ (applyBookEvents s mid).order_ids_cancelled \ s.order_ids_cancelled
    exact Finset.mem_sdiff.mpr ⟨hin, hnot⟩
  refine ⟨hmem, ?_, ?_⟩
  · intro ob hob o ho he
    cases hs : (refresh_cycle s mid (.ok orders balances)).state with
    | none => rw [get_order_book, hs] at hob; cases hob
    | some snap =>
        rw [get_order_book_orders_eq _ snap ob hs hob] at ho
        have hconj := of_decide_eq_true (List.mem_filter.mp ho).2
        subst he
        exact hconj.2 hmem
  · intro es
    exact mem_cancelled_applyBookEvents es _ order_id hmem

/-- Witness for C4: a cancellation of order 7 confirmed mid-poll survives the
reconciliation of that poll. -/
theorem C4_reconciliation_race_safe_witness :
    (7 : Int) ∈ (applyBookEvents exState exMid).order_ids_cancelled ∧
    (7 : Int) ∉ exState.order_ids_cancelled ∧
    (7 : Int) ∈ (refresh_cycle exState exMid (.ok [] none)).order_ids_cancelled :=
  ⟨by decide, by decide,
   ((C4_reconciliation_race_safe exState exMid [] none).2.2.2 7
     (by decide) (by decide)).1⟩

/-- Claim C5: a poll cycle in which a provider raises leaves the whole
manager state exactly as it was (the refresher itself contributes nothing;
with no concurrent events the state is unchanged, field by field), and the
cycle is absorbed into a normal state rather than propagating. -/
theorem C5_failed_poll_leaves_state_unchanged (s : ManagerState)
    (mid : List BookEvent) :
    refresh_cycle s mid .exn = applyBookEvents s mid ∧
    refresh_cycle s [] .exn = s ∧
    (refresh_cycle s [] .exn).state = s.state ∧
    (refresh_cycle s [] .exn).orders_placed = s.orders_placed ∧
    (refresh_cycle s [] .exn).order_ids_cancelling = s.order_ids_cancelling ∧
    (refresh_cycle s [] .exn).order_ids_cancelled = s.order_ids_cancelled ∧
    (refresh_cycle s [] .exn).refresh_count = s.refresh_count :=
  ⟨rfl, rfl, rfl, rfl, rfl, rfl, rfl⟩

/-- Claim C6: the placement task appends the returned order to the placed
list when one is returned, appends nothing on a null return, and decrements
the in-flight counter by exactly one on every exit path; `place_order` itself
increments it by exactly one. -/
theorem C6_place_task_bookkeeping (s : ManagerState) (o : Order) :
    (place_order_start s).currently_placing_orders
        = s.currently_placing_orders + 1 ∧
    (thread_place_order s (.ok (some o))).orders_placed = s.orders_placed ++ [o] ∧
    (thread_place_order s (.ok (some o))).currently_placing_orders
        = s.currently_placing_orders - 1 ∧
    (thread_place_order s (.ok none)).orders_placed = s.orders_placed ∧
    (thread_place_order s (.ok none)).currently_placing_orders
        = s.currently_placing_orders - 1 ∧
    (thread_place_order s .exn).orders_placed = s.orders_placed ∧
    (thread_place_order s .exn).currently_placing_orders
        = s.currently_placing_orders - 1 :=
  ⟨rfl, rfl, rfl, rfl, rfl, rfl, rfl⟩

/-- Counterexample to claim C7 as stated: in the reachable state `c7pre`
(order 7 already successfully cancelled once, a second cancellation of 7
launched) a failing cancellation task for 7 leaves 7 in the
cancelled-unconfirmed set, so it is not true that the id ends up in neither
set. -/
theorem C7_claim_counterexample :
    ¬ ((7 : Int) ∉ (thread_cancel_order c7pre 7 (.ok false)).order_ids_cancelling ∧
       (7 : Int) ∉ (thread_cancel_order c7pre 7 (.ok false)).order_ids_cancelled) := by
  decide

/-- Claim C7 amended: if the canceller returns a falsy value or raises, the
task removes the id from the cancelling set and leaves the
cancelled-unconfirmed set unchanged - so the id ends up in neither set
whenever it was not already in the cancelled-unconfirmed set before the task
ran; and removing an absent id is a no-op, never an error. -/
theorem C7_failed_cancellation_amended (s : ManagerState) (order_id : Int)
    (r : CancelResult) (hr : r = .ok false ∨ r = .exn)
    (hnc : order_id ∉ s.order_ids_cancelled) :
    order_id ∉ (thread_cancel_order s order_id r).order_ids_cancelling ∧
    order_id ∉ (thread_cancel_order s order_id r).order_ids_cancelled ∧
    (thread_cancel_order s order_id r).order_ids_cancelled = s.order_ids_cancelled ∧
    (∀ ids : Finset Int, order_id ∉ ids →
        remove_ignoring_missing ids order_id = ids) := by
  rcases hr with hr | hr <;> subst hr <;>
    exact ⟨Finset.not_mem_erase _ _, hnc, rfl,
           fun ids h => Finset.erase_eq_of_not_mem h⟩

/-- Witness for the amended C7. -/
theorem C7_failed_cancellation_amended_witness :
    (7 : Int) ∉ exState.order_ids_cancelled ∧
    (7 : Int) ∉ (thread_cancel_order exState 7 (.ok false)).order_ids_cancelling ∧
    (7 : Int) ∉ (thread_cancel_order exState 7 (.ok false)).order_ids_cancelled :=
  ⟨by decide,
   (C7_failed_cancellation_amended exState 7 (.ok false) (Or.inl rfl) (by decide)).1,
   (C7_failed_cancellation_amended exState 7 (.ok false) (Or.inl rfl) (by decide)).2.1⟩

/-- Claim C8: the returned `orders_being_placed` flag is true exactly when
the in-flight placement counter is positive, and `orders_being_cancelled` is
true exactly when the cancelling set is non-empty. -/
theorem C8_flags_reflect_trackers (s : ManagerState) (ob : OrderBook)
    (hob : get_order_book s = some ob) :
    (ob.orders_being_placed = true ↔ s.currently_placing_orders > 0) ∧
    (ob.orders_being_cancelled = true ↔ s.order_ids_cancelling.card > 0) := by
  cases hs : s.state with
  | none => rw [get_order_book, hs] at hob; cases hob
  | some snap =>
      rw [get_order_book, hs] at hob
      cases hob
      constructor <;> simp

/-- Witness for C8 on `exState`, whose cancelling set is `{2}`. -/
theorem C8_flags_reflect_trackers_witness :
    get_order_book exState = some exOB ∧ exOB.orders_being_cancelled = true :=
  ⟨by decide,
   (C8_flags_reflect_trackers exState exOB (by decide)).2.mpr (by decide)⟩

/-- Claim C9: the refresh counter goes up by exactly one per successful
cycle, is unchanged by a failed cycle, and is monotone over any execution;
the wait primitive returns only on a strictly greater counter, so under polls
that all fail the counter never moves and the wait condition never holds. -/
theorem C9_refresh_counter_and_wait (s : ManagerState) (mid : List BookEvent)
    (orders : List Order) (balances : Option Nat) (polls : List PollResult)
    (hfail : ∀ p ∈ polls, p = PollResult.exn) :
    (refresh_cycle s mid (.ok orders balances)).refresh_count
        = s.refresh_count + 1 ∧
    (refresh_cycle s mid .exn).refresh_count = s.refresh_count ∧
    (∀ steps : List Step, s.refresh_count ≤ (runSteps s steps).refresh_count) ∧
    (polls.foldl (fun t p => refresh_cycle t [] p) s).refresh_count
        = s.refresh_count ∧
    ¬ wait_for_order_book_refresh_returns s.refresh_count
        (polls.foldl (fun t p => refresh_cycle t [] p) s).refresh_count := by
  have hfold := foldl_failing_polls polls s hfail
  refine ⟨refresh_cycle_ok_refresh_count s mid orders balances,
          refresh_cycle_exn_refresh_count s mid,
          fun steps => refresh_count_le_runSteps steps s, ?_, ?_⟩
  · rw [hfold]
  · rw [hfold]
    exact lt_irrefl _

/-- Witness for C9 with two failing polls from the initial state. -/
theorem C9_refresh_counter_and_wait_witness :
    (∀ p ∈ [PollResult.exn, PollResult.exn], p = PollResult.exn) ∧
    ¬ wait_for_order_book_refresh_returns initState.refresh_count
        (([PollResult.exn, PollResult.exn]).foldl
          (fun t p => refresh_cycle t [] p) initState).refresh_count :=
  ⟨by decide,
   (C9_refresh_counter_and_wait initState [] [] none
     [PollResult.exn, PollResult.exn] (by decide)).2.2.2.2⟩

/-- Claim C10: on a state with a snapshot, `get_order_book` returns a view
and leaves the entire manager state unchanged - its transcription as a state
transformer returns the pre-call state, and the view it pairs with the state
is the one `get_order_book` computes. -/
theorem C10_get_order_book_pure (s : ManagerState) (snap : Snapshot)
    (hs : s.state = some snap) :
    (∃ ob, get_order_book_st s = some (ob, s)) ∧
    (get_order_book_st s).map Prod.snd = some s ∧
    (get_order_book_st s).map Prod.fst = get_order_book s := by
  have hsome : ∃ ob, get_order_book s = some ob := by
    rw [get_order_book, hs]
    exact ⟨_, rfl⟩
  obtain ⟨ob, hob⟩ := hsome
  refine ⟨⟨ob, ?_⟩, ?_, ?_⟩
  · unfold get_order_book_st
    rw [hob]
  · unfold get_order_book_st
    rw [hob]
    rfl
  · unfold get_order_book_st
    rw [hob]
    rfl

/-- Witness for C10 on `exState`. -/
theorem C10_get_order_book_pure_witness :
    exState.state = some exSnap ∧
    (get_order_book_st exState).map Prod.snd = some exState :=
  ⟨by decide, (C10_get_order_book_pure exState exSnap (by decide)).2.1⟩

end MMK
